import Mathlib

/-!
Verification development for the travel-guide generator
(source file: travel_guide.py).

The two core components are embedded shallowly:

* the completion requester `get_travel_plan_markdown` with its model
  fallback loop and the defensive extractor
  `_extract_text_from_chat_completion`;
* the markdown renderer front end `markdown_to_flowables` that turns the
  itinerary markdown into a list of flowables (headings, paragraphs,
  bullet lists, spacers).

Python strings are modelled as Lean `String`; the Python string methods
used by the source (`strip`, `lstrip`, `rstrip`, `startswith`, slicing,
`splitlines`, `join`) are given data-level models below, faithful to
their character-wise semantics.  The network call issued per model is
modelled as an explicit environment `call : String → Except PyErr Comp`
mapping a model identifier to the outcome of its single completion
request (a raised exception or a response object).
-/

namespace TravelGuide

/-! ### Python string primitives -/

/-- Whitespace characters recognised by Python `str.strip` and friends
(ASCII subset; the source only ever meets these). -/
def pyIsSpace (c : Char) : Bool :=
  c == ' ' || c == '\t' || c == '\n' || c == '\r' || c == '\x0b' || c == '\x0c'

/-- Python `s.lstrip()`. -/
def lstrip (s : String) : String := ⟨s.data.dropWhile pyIsSpace⟩

/-- Python `s.rstrip()`. -/
def rstrip (s : String) : String := ⟨(s.data.reverse.dropWhile pyIsSpace).reverse⟩

/-- Python `s.strip()`. -/
def pyStrip (s : String) : String := lstrip (rstrip s)

/-- Python `s.startswith(pre)` for a single pattern string. -/
def pyStartswith (s pre : String) : Bool :=
  s.data.take pre.data.length == pre.data

/-- Python `s[n:]` (character-wise slicing from index `n`). -/
def strSliceFrom (s : String) (n : Nat) : String := ⟨s.data.drop n⟩

/-- Single-character line boundaries of Python `str.splitlines`. -/
def isLineBreak (c : Char) : Bool :=
  c == '\n' || c == '\r' || c == '\x0b' || c == '\x0c' ||
  c == '\x1c' || c == '\x1d' || c == '\x1e' || c == '\x85' ||
  c == '\u2028' || c == '\u2029'

/-- Worker for `splitlines`: `acc` holds the current line reversed. -/
def splitlinesAux : List Char → List Char → List String
  | [], acc => if acc.isEmpty then [] else [⟨acc.reverse⟩]
  | c :: rest, acc =>
    if c == '\r' then
      (⟨acc.reverse⟩ : String) ::
        (match rest with
         | [] => []
         | c2 :: rest2 =>
           if c2 == '\n' then splitlinesAux rest2 []
           else splitlinesAux (c2 :: rest2) [])
    else if isLineBreak c then (⟨acc.reverse⟩ : String) :: splitlinesAux rest []
    else splitlinesAux rest (c :: acc)

/-- Python `s.splitlines()`: split at line boundaries, `\r\n` counting as
one boundary, with no trailing empty line for a trailing boundary. -/
def splitlines (s : String) : List String := splitlinesAux s.data []

/-- Python `"\n".join(parts)`. -/
def joinNL : List String → String
  | [] => ""
  | [s] => s
  | s :: rest => s ++ "\n" ++ joinNL rest

/-! ### Completion response model and the defensive extractor
(`_extract_text_from_chat_completion`, travel_guide.py lines 143-163) -/

/-- One element of a content-part list: a plain string, a dict (whose
`text` entry is a string when `some`), or any other value. -/
inductive Part where
  | str (s : String)
  | obj (textField : Option String)
  | other
deriving DecidableEq

/-- The `message.content` field: a plain string, a list of parts, or any
other value (e.g. `None`). -/
inductive Content where
  | str (s : String)
  | parts (ps : List Part)
  | other
deriving DecidableEq

structure Message where
  content : Content
deriving DecidableEq

structure Choice where
  message : Message
deriving DecidableEq

/-- A chat-completion response: the fields the source reads. -/
structure Comp where
  choices : List Choice
deriving DecidableEq

/-- The fragments collected by the extractor loop: plain strings, and
dict entries carrying a string `text` field; everything else skipped. -/
def extractFragments : List Part → List String
  | [] => []
  | Part.str s :: ps => s :: extractFragments ps
  | Part.obj (some t) :: ps => t :: extractFragments ps
  | Part.obj none :: ps => extractFragments ps
  | Part.other :: ps => extractFragments ps

/-- Model of `_extract_text_from_chat_completion`: reads
`comp.choices[0].message.content`; an out-of-range access raises and is
caught, giving `""`.  A plain string is returned as-is when its strip is
non-empty; a part list is joined with newlines and stripped; otherwise
the result is the empty string. -/
def _extract_text_from_chat_completion (comp : Comp) : String :=
  match comp.choices.head? with
  | none => ""
  | some choice =>
    match choice.message.content with
    | Content.str txt =>
      if (pyStrip txt).data.isEmpty then "" else txt
    | Content.parts ps =>
      let joined := pyStrip (joinNL (extractFragments ps))
      if joined.data.isEmpty then "" else joined
    | Content.other => ""

/-! ### Fallback loop (`get_travel_plan_markdown`, lines 165-193) -/

/-- Exceptions relevant to the fallback loop: the synthetic
`RuntimeError` recording an empty-content attempt for a given model, and
any exception raised by the completion call itself. -/
inductive PyErr where
  | emptyContent (model : String)
  | apiError (detail : String)
deriving DecidableEq

/-- The terminal `RuntimeError` raised after exhausting all models; it
embeds the `last_error` value (which is `none` when no attempt was
made). -/
structure ExhaustedError where
  last_error : Option PyErr
deriving DecidableEq

/-- The model priority list `FALLBACK_MODELS` (line 141). -/
def FALLBACK_MODELS : List String := ["gpt-4o", "gpt-4o-mini", "gpt-4-turbo"]

/-- The `for model_name in FALLBACK_MODELS` loop body with the threaded
`last_error`: a raised call error or an empty extraction moves on to the
next candidate (recording the error); a non-empty-after-strip extraction
returns immediately together with the model identifier used (the
source records it in `st.session_state["last_model_used"]`). -/
def fallbackLoop (call : String → Except PyErr Comp) :
    List String → Option PyErr → Except ExhaustedError (String × String)
  | [], lastError => Except.error ⟨lastError⟩
  | m :: rest, lastError =>
    match call m with
    | Except.error e => fallbackLoop call rest (some e)
    | Except.ok comp =>
      let text := _extract_text_from_chat_completion comp
      if (pyStrip text).data.isEmpty then
        fallbackLoop call rest (some (PyErr.emptyContent m))
      else
        Except.ok (text, m)

/-- Model of `get_travel_plan_markdown`, generalised over the model
priority list (the source instantiates it with `FALLBACK_MODELS`) and
over the completion-call environment; `last_error` starts as `None`. -/
def get_travel_plan_markdown (call : String → Except PyErr Comp)
    (models : List String) : Except ExhaustedError (String × String) :=
  fallbackLoop call models none

/-- Whether the attempt at model `m` fails (raises, or extracts
only-whitespace content). -/
def attemptFails (call : String → Except PyErr Comp) (m : String) : Bool :=
  match call m with
  | Except.error _ => true
  | Except.ok comp => (pyStrip (_extract_text_from_chat_completion comp)).data.isEmpty

/-- The text a successful attempt at model `m` would return. -/
def attemptText (call : String → Except PyErr Comp) (m : String) : String :=
  match call m with
  | Except.error _ => ""
  | Except.ok comp => _extract_text_from_chat_completion comp

/-- The error recorded for a failing attempt at model `m`. -/
def attemptError (call : String → Except PyErr Comp) (m : String) : PyErr :=
  match call m with
  | Except.error e => e
  | Except.ok _ => PyErr.emptyContent m

/-! ### Markdown renderer front end
(`markdown_to_flowables`, lines 198-243) -/

/-- The paragraph styles distinguished by the source: `h2`, `h3`,
`BodyText`, plus the title-block styles used by `write_pdf`. -/
inductive Style where
  | h2
  | h3
  | body
  | header
  | normal
deriving DecidableEq

/-- The flowables produced by the source: `Spacer(w, h)`,
`Paragraph(text, style)` and `ListFlowable` over the item texts (the
constant bullet/indent parameters are omitted). -/
inductive Flowable where
  | SpacerF (width height : Nat)
  | ParagraphF (text : String) (style : Style)
  | ListFlowableF (items : List String)
deriving DecidableEq

/-- The bullet test `line.lstrip().startswith(("-", "*", "•"))`. -/
def isBulletMarked (l : String) : Bool :=
  pyStartswith (lstrip l) "-" || pyStartswith (lstrip l) "*" ||
    pyStartswith (lstrip l) "•"

/-- The item text of a bullet line: `line.lstrip()[1:].strip()`. -/
def bulletItem (l : String) : String := pyStrip (strSliceFrom (lstrip l) 1)

/-- The inner `while` of the bullet branch: consume consecutive lines
whose left-stripped form starts with a bullet marker, collecting each
item text; return the items and the unconsumed remainder. -/
def takeBullets : List String → List String × List String
  | [] => ([], [])
  | l :: rest =>
    if isBulletMarked l then
      let p := takeBullets rest
      (bulletItem l :: p.1, p.2)
    else ([], l :: rest)

/-- The `while i < len(lines)` loop of `markdown_to_flowables`, with
explicit fuel bounding the number of outer iterations.  Every iteration
consumes at least one line (the bullet branch consumes the whole bullet
run), so `fuel = lines.length` always suffices — this is proved below as
`flowLoopFuel_stable`. -/
def flowLoopFuel : Nat → List String → List Flowable
  | 0, _ => []
  | _, [] => []
  | fuel + 1, l :: rest =>
    let line := rstrip l
    if (pyStrip line).data.isEmpty then
      Flowable.SpacerF 1 6 :: flowLoopFuel fuel rest
    else if pyStartswith line "## " then
      Flowable.ParagraphF (pyStrip (strSliceFrom line 3)) Style.h2 ::
        flowLoopFuel fuel rest
    else if pyStartswith line "### " then
      Flowable.ParagraphF (pyStrip (strSliceFrom line 4)) Style.h3 ::
        flowLoopFuel fuel rest
    else if isBulletMarked line then
      let grabbed := takeBullets (l :: rest)
      Flowable.ListFlowableF grabbed.1 :: Flowable.SpacerF 1 4 ::
        flowLoopFuel fuel grabbed.2
    else
      Flowable.ParagraphF line Style.body :: flowLoopFuel fuel rest

/-- The parse of a line list, with the sufficient fuel. -/
def flowablesOf (lines : List String) : List Flowable :=
  flowLoopFuel lines.length lines

/-- `markdown_to_flowables(md_text, styles)`: split into lines and run
the dispatch loop (the `styles` argument only supplies the style
objects modelled by `Style`). -/
def markdown_to_flowables (md_text : String) : List Flowable :=
  flowablesOf (splitlines md_text)

/-- The story built by `write_pdf` (lines 245-274) before
`doc.build(story)`: title paragraph, generation-timestamp paragraph
(`now` is the formatted `datetime.now()` value), a spacer, then the
parsed markdown flowables. -/
def write_pdf_story (markdown_text destination now : String) : List Flowable :=
  Flowable.ParagraphF ("Travel Guide: " ++ destination) Style.header ::
  Flowable.ParagraphF ("Generated: " ++ now) Style.normal ::
  Flowable.SpacerF 1 10 ::
  markdown_to_flowables markdown_text

/-! ### Visible text of the output, and the per-line text map -/

/-- The visible text carried by one flowable. -/
def flowableTexts : Flowable → List String
  | Flowable.SpacerF _ _ => []
  | Flowable.ParagraphF t _ => [t]
  | Flowable.ListFlowableF items => items

/-- The visible texts of a flowable list, in order. -/
def visibleTexts : List Flowable → List String
  | [] => []
  | f :: fs => flowableTexts f ++ visibleTexts fs

/-- The text a single input line contributes to the output, by the same
dispatch the loop applies: `none` for a blank line, the trimmed
remainder for a heading line, the item text for a bullet line, the
right-stripped line for a paragraph line. -/
def lineText (l : String) : Option String :=
  let line := rstrip l
  if (pyStrip line).data.isEmpty then none
  else if pyStartswith line "## " then some (pyStrip (strSliceFrom line 3))
  else if pyStartswith line "### " then some (pyStrip (strSliceFrom line 4))
  else if isBulletMarked line then some (bulletItem l)
  else some line

/-! ### List and string toolkit -/

lemma dropWhile_head_false {p : Char → Bool} :
    ∀ {d : List Char} {c : Char} {cs : List Char}, d.dropWhile p = c :: cs → p c = false := by
  intro d
  induction d with
  | nil => intro c cs h; simp [List.dropWhile] at h
  | cons a d ih =>
    intro c cs h
    rw [List.dropWhile_cons] at h
    by_cases ha : p a = true
    · rw [if_pos ha] at h; exact ih h
    · rw [if_neg ha] at h
      injection h with h1 h2
      subst h1
      simpa using ha

lemma dropWhile_dropWhile (p : Char → Bool) (d : List Char) :
    (d.dropWhile p).dropWhile p = d.dropWhile p := by
  cases h : d.dropWhile p with
  | nil => simp
  | cons c cs => rw [List.dropWhile_cons, if_neg (by simp [dropWhile_head_false h])]

lemma length_dropWhile_le {α : Type} (p : α → Bool) (L : List α) :
    (L.dropWhile p).length ≤ L.length := by
  induction L with
  | nil => simp
  | cons a L ih =>
    rw [List.dropWhile_cons]
    by_cases h : p a = true
    · rw [if_pos h]; exact Nat.le_succ_of_le ih
    · rw [if_neg h]

lemma rstrip_decomp (d : List Char) :
    ∃ t, d = (d.reverse.dropWhile pyIsSpace).reverse ++ t ∧
      ∀ c ∈ t, pyIsSpace c = true := by
  refine ⟨(d.reverse.takeWhile pyIsSpace).reverse, ?_, ?_⟩
  · conv_lhs => rw [← d.reverse_reverse,
      ← List.takeWhile_append_dropWhile pyIsSpace d.reverse]
    rw [List.reverse_append]
  · intro c hc
    rw [List.mem_reverse] at hc
    exact List.mem_takeWhile_imp hc

lemma lstrip_rstrip_head (d : List Char) :
    (((d.reverse.dropWhile pyIsSpace).reverse).dropWhile pyIsSpace).head? =
      (d.dropWhile pyIsSpace).head? := by
  obtain ⟨t, hd, ht⟩ := rstrip_decomp d
  conv_rhs => rw [hd]
  rw [List.dropWhile_append]
  cases h : ((d.reverse.dropWhile pyIsSpace).reverse).dropWhile pyIsSpace with
  | nil =>
    simp only [List.isEmpty_nil, if_pos]
    rw [List.dropWhile_eq_nil_iff.mpr ht]
  | cons c cs => simp

lemma data_lstrip (s : String) : (lstrip s).data = s.data.dropWhile pyIsSpace := rfl

lemma data_rstrip (s : String) :
    (rstrip s).data = (s.data.reverse.dropWhile pyIsSpace).reverse := rfl

lemma pyStrip_data_eq (l : String) :
    (pyStrip l).data = (rstrip l).data.dropWhile pyIsSpace := rfl

lemma rstrip_rstrip (s : String) : rstrip (rstrip s) = rstrip s := by
  show String.mk _ = String.mk _
  apply congrArg String.mk
  rw [data_rstrip, List.reverse_reverse, dropWhile_dropWhile]

lemma pyStrip_rstrip (s : String) : pyStrip (rstrip s) = pyStrip s := by
  unfold pyStrip
  rw [rstrip_rstrip]

lemma pyStrip_head (s : String) :
    (pyStrip s).data.head? = (lstrip s).data.head? :=
  lstrip_rstrip_head s.data

lemma take_one_eq_iff (d : List Char) (c : Char) :
    d.take 1 = [c] ↔ d.head? = some c := by
  cases d <;> simp

lemma isBulletMarked_iff (s : String) :
    isBulletMarked s = true ↔
      ∃ c, (s.data.dropWhile pyIsSpace).head? = some c ∧
        (c = '-' ∨ c = '*' ∨ c = '•') := by
  unfold isBulletMarked pyStartswith
  rw [show ("-" : String).data = ['-'] from rfl,
    show ("*" : String).data = ['*'] from rfl,
    show ("•" : String).data = ['•'] from rfl]
  simp only [data_lstrip, List.length_cons, List.length_nil, Nat.zero_add,
    Bool.or_eq_true, beq_iff_eq, take_one_eq_iff]
  constructor
  · rintro ((h | h) | h)
    · exact ⟨'-', h, Or.inl rfl⟩
    · exact ⟨'*', h, Or.inr (Or.inl rfl)⟩
    · exact ⟨'•', h, Or.inr (Or.inr rfl)⟩
  · rintro ⟨c, hc, (rfl | rfl | rfl)⟩
    · exact Or.inl (Or.inl hc)
    · exact Or.inl (Or.inr hc)
    · exact Or.inr hc

lemma isBulletMarked_rstrip (l : String) :
    isBulletMarked (rstrip l) = isBulletMarked l := by
  have hh : ((rstrip l).data.dropWhile pyIsSpace).head? =
      (l.data.dropWhile pyIsSpace).head? := by
    rw [data_rstrip]
    exact lstrip_rstrip_head l.data
  cases hb : isBulletMarked l with
  | true =>
    obtain ⟨c, hc, hd⟩ := (isBulletMarked_iff l).mp hb
    exact (isBulletMarked_iff (rstrip l)).mpr ⟨c, hh.trans hc, hd⟩
  | false =>
    cases hb2 : isBulletMarked (rstrip l) with
    | false => rfl
    | true =>
      obtain ⟨c, hc, hd⟩ := (isBulletMarked_iff (rstrip l)).mp hb2
      rw [hh] at hc
      rw [(isBulletMarked_iff l).mpr ⟨c, hc, hd⟩] at hb
      exact hb

lemma pyStrip_isEmpty_false_of_bullet (l : String) (h : isBulletMarked l = true) :
    (pyStrip l).data.isEmpty = false := by
  obtain ⟨c, hc, _⟩ := (isBulletMarked_iff l).mp h
  have : (pyStrip l).data.head? = some c := by
    rw [pyStrip_head, data_lstrip]; exact hc
  cases hd : (pyStrip l).data with
  | nil => rw [hd] at this; simp at this
  | cons a as => simp

lemma take3_decomp (d : List Char) (a b c : Char) (h : d.take 3 = [a, b, c]) :
    ∃ r, d = a :: b :: c :: r := by
  match d with
  | [] => simp at h
  | [x] => simp at h
  | [x, y] => simp at h
  | x :: y :: z :: r =>
    have h2 : x = a ∧ y = b ∧ z = c := by simpa using h
    obtain ⟨rfl, rfl, rfl⟩ := h2
    exact ⟨r, rfl⟩

lemma take4_decomp (d : List Char) (a b c e : Char) (h : d.take 4 = [a, b, c, e]) :
    ∃ r, d = a :: b :: c :: e :: r := by
  match d with
  | [] => simp at h
  | [x] => simp at h
  | [x, y] => simp at h
  | [x, y, z] => simp at h
  | x :: y :: z :: w :: r =>
    have h2 : x = a ∧ y = b ∧ z = c ∧ w = e := by simpa using h
    obtain ⟨rfl, rfl, rfl, rfl⟩ := h2
    exact ⟨r, rfl⟩

lemma pyStartswith_h2_data (s : String) (h : pyStartswith s "## " = true) :
    ∃ r, s.data = '#' :: '#' :: ' ' :: r := by
  unfold pyStartswith at h
  rw [show ("## " : String).data = ['#', '#', ' '] from rfl] at h
  simp only [List.length_cons, List.length_nil, beq_iff_eq] at h
  exact take3_decomp _ _ _ _ h

lemma pyStartswith_h3_data (s : String) (h : pyStartswith s "### " = true) :
    ∃ r, s.data = '#' :: '#' :: '#' :: ' ' :: r := by
  unfold pyStartswith at h
  rw [show ("### " : String).data = ['#', '#', '#', ' '] from rfl] at h
  simp only [List.length_cons, List.length_nil, beq_iff_eq] at h
  exact take4_decomp _ _ _ _ _ h

lemma h3_not_h2 (s : String) (h : pyStartswith s "### " = true) :
    pyStartswith s "## " = false := by
  obtain ⟨r, hr⟩ := pyStartswith_h3_data s h
  unfold pyStartswith
  rw [show ("## " : String).data = ['#', '#', ' '] from rfl, hr]
  simp only [List.length_cons, List.length_nil, List.take]
  decide

lemma pyStrip_head_of_h2 (l : String) (h : pyStartswith (rstrip l) "## " = true) :
    (pyStrip l).data.head? = some '#' := by
  obtain ⟨r, hr⟩ := pyStartswith_h2_data _ h
  rw [pyStrip_data_eq, hr, List.dropWhile_cons, if_neg (by decide)]
  rfl

lemma pyStrip_head_of_h3 (l : String) (h : pyStartswith (rstrip l) "### " = true) :
    (pyStrip l).data.head? = some '#' := by
  obtain ⟨r, hr⟩ := pyStartswith_h3_data _ h
  rw [pyStrip_data_eq, hr, List.dropWhile_cons, if_neg (by decide)]
  rfl

lemma pyStrip_isEmpty_false_of_h2 (l : String)
    (h : pyStartswith (rstrip l) "## " = true) :
    (pyStrip l).data.isEmpty = false := by
  have := pyStrip_head_of_h2 l h
  cases hd : (pyStrip l).data with
  | nil => rw [hd] at this; simp at this
  | cons a as => simp

lemma pyStrip_isEmpty_false_of_h3 (l : String)
    (h : pyStartswith (rstrip l) "### " = true) :
    (pyStrip l).data.isEmpty = false := by
  have := pyStrip_head_of_h3 l h
  cases hd : (pyStrip l).data with
  | nil => rw [hd] at this; simp at this
  | cons a as => simp

lemma not_h2_of_bullet (l : String) (h : isBulletMarked l = true) :
    pyStartswith (rstrip l) "## " = false := by
  cases hb : pyStartswith (rstrip l) "## " with
  | false => rfl
  | true =>
    obtain ⟨c, hc, hd⟩ := (isBulletMarked_iff l).mp h
    have h1 : (pyStrip l).data.head? = some c := by
      rw [pyStrip_head, data_lstrip]; exact hc
    rw [pyStrip_head_of_h2 l hb] at h1
    cases h1
    rcases hd with h | h | h <;> simp at h

lemma not_h3_of_bullet (l : String) (h : isBulletMarked l = true) :
    pyStartswith (rstrip l) "### " = false := by
  cases hb : pyStartswith (rstrip l) "### " with
  | false => rfl
  | true =>
    obtain ⟨c, hc, hd⟩ := (isBulletMarked_iff l).mp h
    have h1 : (pyStrip l).data.head? = some c := by
      rw [pyStrip_head, data_lstrip]; exact hc
    rw [pyStrip_head_of_h3 l hb] at h1
    cases h1
    rcases hd with h | h | h <;> simp at h

/-! ### takeBullets as takeWhile and dropWhile -/

lemma takeBullets_eq (L : List String) :
    takeBullets L =
      ((L.takeWhile isBulletMarked).map bulletItem, L.dropWhile isBulletMarked) := by
  induction L with
  | nil => rfl
  | cons l rest ih =>
    rw [takeBullets, List.takeWhile_cons, List.dropWhile_cons]
    by_cases h : isBulletMarked l = true
    · rw [if_pos h, if_pos h, if_pos h, ih]
      simp
    · rw [if_neg h, if_neg h, if_neg h]
      simp

/-! ### Step lemmas for the dispatch loop -/

lemma flowLoopFuel_succ_cons (fuel : Nat) (l : String) (rest : List String) :
    flowLoopFuel (fuel + 1) (l :: rest) =
      (let line := rstrip l
       if (pyStrip line).data.isEmpty then
         Flowable.SpacerF 1 6 :: flowLoopFuel fuel rest
       else if pyStartswith line "## " then
         Flowable.ParagraphF (pyStrip (strSliceFrom line 3)) Style.h2 ::
           flowLoopFuel fuel rest
       else if pyStartswith line "### " then
         Flowable.ParagraphF (pyStrip (strSliceFrom line 4)) Style.h3 ::
           flowLoopFuel fuel rest
       else if isBulletMarked line then
         let grabbed := takeBullets (l :: rest)
         Flowable.ListFlowableF grabbed.1 :: Flowable.SpacerF 1 4 ::
           flowLoopFuel fuel grabbed.2
       else
         Flowable.ParagraphF line Style.body :: flowLoopFuel fuel rest) := rfl

lemma flowLoopFuel_blank (fuel : Nat) (l : String) (rest : List String)
    (h : (pyStrip l).data.isEmpty = true) :
    flowLoopFuel (fuel + 1) (l :: rest) =
      Flowable.SpacerF 1 6 :: flowLoopFuel fuel rest := by
  have h2 : (pyStrip (rstrip l)).data.isEmpty = true := by rw [pyStrip_rstrip]; exact h
  rw [flowLoopFuel_succ_cons]
  simp only [h2, if_pos]

lemma flowLoopFuel_h2 (fuel : Nat) (l : String) (rest : List String)
    (hb : (pyStrip l).data.isEmpty = false)
    (h2 : pyStartswith (rstrip l) "## " = true) :
    flowLoopFuel (fuel + 1) (l :: rest) =
      Flowable.ParagraphF (pyStrip (strSliceFrom (rstrip l) 3)) Style.h2 ::
        flowLoopFuel fuel rest := by
  have hb2 : (pyStrip (rstrip l)).data.isEmpty = false := by
    rw [pyStrip_rstrip]; exact hb
  rw [flowLoopFuel_succ_cons]
  simp only [hb2, h2, Bool.false_eq_true, if_false, if_pos]

lemma flowLoopFuel_h3 (fuel : Nat) (l : String) (rest : List String)
    (hb : (pyStrip l).data.isEmpty = false)
    (hno2 : pyStartswith (rstrip l) "## " = false)
    (h3 : pyStartswith (rstrip l) "### " = true) :
    flowLoopFuel (fuel + 1) (l :: rest) =
      Flowable.ParagraphF (pyStrip (strSliceFrom (rstrip l) 4)) Style.h3 ::
        flowLoopFuel fuel rest := by
  have hb2 : (pyStrip (rstrip l)).data.isEmpty = false := by
    rw [pyStrip_rstrip]; exact hb
  rw [flowLoopFuel_succ_cons]
  simp only [hb2, hno2, h3, Bool.false_eq_true, if_false, if_pos]

lemma flowLoopFuel_bullet (fuel : Nat) (l : String) (rest : List String)
    (h : isBulletMarked l = true) :
    flowLoopFuel (fuel + 1) (l :: rest) =
      Flowable.ListFlowableF (((l :: rest).takeWhile isBulletMarked).map bulletItem) ::
        Flowable.SpacerF 1 4 ::
        flowLoopFuel fuel ((l :: rest).dropWhile isBulletMarked) := by
  have hb : (pyStrip (rstrip l)).data.isEmpty = false := by
    rw [pyStrip_rstrip]; exact pyStrip_isEmpty_false_of_bullet l h
  have hm : isBulletMarked (rstrip l) = true := by rw [isBulletMarked_rstrip]; exact h
  rw [flowLoopFuel_succ_cons]
  simp only [hb, not_h2_of_bullet l h, not_h3_of_bullet l h, hm, Bool.false_eq_true,
    if_false, if_pos, takeBullets_eq]

lemma flowLoopFuel_para (fuel : Nat) (l : String) (rest : List String)
    (hb : (pyStrip l).data.isEmpty = false)
    (h2 : pyStartswith (rstrip l) "## " = false)
    (h3 : pyStartswith (rstrip l) "### " = false)
    (hbm : isBulletMarked l = false) :
    flowLoopFuel (fuel + 1) (l :: rest) =
      Flowable.ParagraphF (rstrip l) Style.body :: flowLoopFuel fuel rest := by
  have hb2 : (pyStrip (rstrip l)).data.isEmpty = false := by
    rw [pyStrip_rstrip]; exact hb
  have hm : isBulletMarked (rstrip l) = false := by rw [isBulletMarked_rstrip]; exact hbm
  rw [flowLoopFuel_succ_cons]
  simp only [hb2, h2, h3, hm, Bool.false_eq_true, if_false]

/-! ### Fuel stability: one unit of fuel per input line suffices -/

lemma flowLoopFuel_nil (fuel : Nat) : flowLoopFuel fuel [] = [] := by
  cases fuel <;> rfl

lemma flowLoopFuel_succ_stable :
    ∀ (fuel : Nat) (lines : List String), lines.length ≤ fuel →
      flowLoopFuel (fuel + 1) lines = flowLoopFuel fuel lines := by
  intro fuel
  induction fuel with
  | zero =>
    intro lines h
    have hl : lines = [] := List.eq_nil_of_length_eq_zero (Nat.le_zero.mp h)
    subst hl
    rfl
  | succ f ih =>
    intro lines h
    cases lines with
    | nil => rfl
    | cons l rest =>
      have hrest : rest.length ≤ f := by
        simp only [List.length_cons] at h
        omega
      cases hb : (pyStrip l).data.isEmpty with
      | true =>
        rw [flowLoopFuel_blank (f + 1) l rest hb, flowLoopFuel_blank f l rest hb,
          ih rest hrest]
      | false =>
        cases h2 : pyStartswith (rstrip l) "## " with
        | true =>
          rw [flowLoopFuel_h2 (f + 1) l rest hb h2, flowLoopFuel_h2 f l rest hb h2,
            ih rest hrest]
        | false =>
          cases h3 : pyStartswith (rstrip l) "### " with
          | true =>
            rw [flowLoopFuel_h3 (f + 1) l rest hb h2 h3,
              flowLoopFuel_h3 f l rest hb h2 h3, ih rest hrest]
          | false =>
            cases hm : isBulletMarked l with
            | true =>
              rw [flowLoopFuel_bullet (f + 1) l rest hm, flowLoopFuel_bullet f l rest hm]
              have hlen : ((l :: rest).dropWhile isBulletMarked).length ≤ f := by
                rw [List.dropWhile_cons, if_pos hm]
                exact Nat.le_trans (length_dropWhile_le _ _) hrest
              rw [ih _ hlen]
            | false =>
              rw [flowLoopFuel_para (f + 1) l rest hb h2 h3 hm,
                flowLoopFuel_para f l rest hb h2 h3 hm, ih rest hrest]

lemma flowLoopFuel_add (k : Nat) :
    ∀ lines : List String, flowLoopFuel (lines.length + k) lines = flowablesOf lines := by
  induction k with
  | zero => intro lines; rfl
  | succ n ih =>
    intro lines
    rw [show lines.length + (n + 1) = (lines.length + n) + 1 from rfl,
      flowLoopFuel_succ_stable (lines.length + n) lines (Nat.le_add_right _ _), ih]

lemma flowLoopFuel_stable (fuel : Nat) (lines : List String) (h : lines.length ≤ fuel) :
    flowLoopFuel fuel lines = flowablesOf lines := by
  obtain ⟨k, rfl⟩ := Nat.exists_eq_add_of_le h
  exact flowLoopFuel_add k lines

/-! ### Step lemmas at the flowablesOf level -/

lemma flowablesOf_nil : flowablesOf [] = [] := rfl

lemma flowablesOf_blank (l : String) (rest : List String)
    (h : (pyStrip l).data.isEmpty = true) :
    flowablesOf (l :: rest) = Flowable.SpacerF 1 6 :: flowablesOf rest := by
  show flowLoopFuel (rest.length + 1) (l :: rest) = _
  rw [flowLoopFuel_blank rest.length l rest h]
  rfl

lemma flowablesOf_h2 (l : String) (rest : List String)
    (hb : (pyStrip l).data.isEmpty = false)
    (h2 : pyStartswith (rstrip l) "## " = true) :
    flowablesOf (l :: rest) =
      Flowable.ParagraphF (pyStrip (strSliceFrom (rstrip l) 3)) Style.h2 ::
        flowablesOf rest := by
  show flowLoopFuel (rest.length + 1) (l :: rest) = _
  rw [flowLoopFuel_h2 rest.length l rest hb h2]
  rfl

lemma flowablesOf_h3 (l : String) (rest : List String)
    (hb : (pyStrip l).data.isEmpty = false)
    (hno2 : pyStartswith (rstrip l) "## " = false)
    (h3 : pyStartswith (rstrip l) "### " = true) :
    flowablesOf (l :: rest) =
      Flowable.ParagraphF (pyStrip (strSliceFrom (rstrip l) 4)) Style.h3 ::
        flowablesOf rest := by
  show flowLoopFuel (rest.length + 1) (l :: rest) = _
  rw [flowLoopFuel_h3 rest.length l rest hb hno2 h3]
  rfl

lemma flowablesOf_bullet (l : String) (rest : List String)
    (h : isBulletMarked l = true) :
    flowablesOf (l :: rest) =
      Flowable.ListFlowableF (((l :: rest).takeWhile isBulletMarked).map bulletItem) ::
        Flowable.SpacerF 1 4 :: flowablesOf ((l :: rest).dropWhile isBulletMarked) := by
  show flowLoopFuel (rest.length + 1) (l :: rest) = _
  rw [flowLoopFuel_bullet rest.length l rest h]
  have hlen : ((l :: rest).dropWhile isBulletMarked).length ≤ rest.length := by
    rw [List.dropWhile_cons, if_pos h]
    exact length_dropWhile_le _ _
  rw [flowLoopFuel_stable rest.length _ hlen]

lemma flowablesOf_para (l : String) (rest : List String)
    (hb : (pyStrip l).data.isEmpty = false)
    (h2 : pyStartswith (rstrip l) "## " = false)
    (h3 : pyStartswith (rstrip l) "### " = false)
    (hbm : isBulletMarked l = false) :
    flowablesOf (l :: rest) =
      Flowable.ParagraphF (rstrip l) Style.body :: flowablesOf rest := by
  show flowLoopFuel (rest.length + 1) (l :: rest) = _
  rw [flowLoopFuel_para rest.length l rest hb h2 h3 hbm]
  rfl

/-! ### Per-line text equations -/

lemma lineText_eq_blank (l : String) (h : (pyStrip l).data.isEmpty = true) :
    lineText l = none := by
  have h2 : (pyStrip (rstrip l)).data.isEmpty = true := by rw [pyStrip_rstrip]; exact h
  unfold lineText
  simp only [h2, if_pos]

lemma lineText_eq_h2 (l : String) (hb : (pyStrip l).data.isEmpty = false)
    (h2 : pyStartswith (rstrip l) "## " = true) :
    lineText l = some (pyStrip (strSliceFrom (rstrip l) 3)) := by
  have hb2 : (pyStrip (rstrip l)).data.isEmpty = false := by rw [pyStrip_rstrip]; exact hb
  unfold lineText
  simp only [hb2, h2, Bool.false_eq_true, if_false, if_pos]

lemma lineText_eq_h3 (l : String) (hb : (pyStrip l).data.isEmpty = false)
    (hno2 : pyStartswith (rstrip l) "## " = false)
    (h3 : pyStartswith (rstrip l) "### " = true) :
    lineText l = some (pyStrip (strSliceFrom (rstrip l) 4)) := by
  have hb2 : (pyStrip (rstrip l)).data.isEmpty = false := by rw [pyStrip_rstrip]; exact hb
  unfold lineText
  simp only [hb2, hno2, h3, Bool.false_eq_true, if_false, if_pos]

lemma lineText_eq_bullet (l : String) (h : isBulletMarked l = true) :
    lineText l = some (bulletItem l) := by
  have hb : (pyStrip (rstrip l)).data.isEmpty = false := by
    rw [pyStrip_rstrip]; exact pyStrip_isEmpty_false_of_bullet l h
  have hm : isBulletMarked (rstrip l) = true := by rw [isBulletMarked_rstrip]; exact h
  unfold lineText
  simp only [hb, not_h2_of_bullet l h, not_h3_of_bullet l h, hm, Bool.false_eq_true,
    if_false, if_pos]

lemma lineText_eq_para (l : String) (hb : (pyStrip l).data.isEmpty = false)
    (h2 : pyStartswith (rstrip l) "## " = false)
    (h3 : pyStartswith (rstrip l) "### " = false)
    (hbm : isBulletMarked l = false) :
    lineText l = some (rstrip l) := by
  have hb2 : (pyStrip (rstrip l)).data.isEmpty = false := by rw [pyStrip_rstrip]; exact hb
  have hm : isBulletMarked (rstrip l) = false := by rw [isBulletMarked_rstrip]; exact hbm
  unfold lineText
  simp only [hb2, h2, h3, hm, Bool.false_eq_true, if_false]

lemma lineText_none_iff (l : String) :
    lineText l = none ↔ (pyStrip l).data.isEmpty = true := by
  constructor
  · intro h
    cases hb : (pyStrip l).data.isEmpty with
    | true => rfl
    | false =>
      cases h2 : pyStartswith (rstrip l) "## " with
      | true => rw [lineText_eq_h2 l hb h2] at h; cases h
      | false =>
        cases h3 : pyStartswith (rstrip l) "### " with
        | true => rw [lineText_eq_h3 l hb h2 h3] at h; cases h
        | false =>
          cases hm : isBulletMarked l with
          | true => rw [lineText_eq_bullet l hm] at h; cases h
          | false => rw [lineText_eq_para l hb h2 h3 hm] at h; cases h
  · exact lineText_eq_blank l

/-! ### Visible texts of the parse equal the per-line texts -/

lemma visibleTexts_cons (f : Flowable) (fs : List Flowable) :
    visibleTexts (f :: fs) = flowableTexts f ++ visibleTexts fs := rfl

lemma filterMap_eq_map_of_bullets :
    ∀ xs : List String, (∀ x ∈ xs, isBulletMarked x = true) →
      xs.filterMap lineText = xs.map bulletItem := by
  intro xs
  induction xs with
  | nil => intro _; rfl
  | cons a xs ih =>
    intro h
    rw [List.filterMap_cons_some (lineText_eq_bullet a (h a (by simp))),
      List.map_cons, ih (fun x hx => h x (by simp [hx]))]

lemma visibleTexts_flowLoopFuel :
    ∀ (fuel : Nat) (lines : List String), lines.length ≤ fuel →
      visibleTexts (flowLoopFuel fuel lines) = lines.filterMap lineText := by
  intro fuel
  induction fuel with
  | zero =>
    intro lines h
    have hl : lines = [] := List.eq_nil_of_length_eq_zero (Nat.le_zero.mp h)
    subst hl
    rfl
  | succ f ih =>
    intro lines h
    cases lines with
    | nil => rfl
    | cons l rest =>
      have hrest : rest.length ≤ f := by
        simp only [List.length_cons] at h
        omega
      cases hb : (pyStrip l).data.isEmpty with
      | true =>
        rw [flowLoopFuel_blank f l rest hb, visibleTexts_cons, ih rest hrest,
          List.filterMap_cons_none (lineText_eq_blank l hb)]
        rfl
      | false =>
        cases h2 : pyStartswith (rstrip l) "## " with
        | true =>
          rw [flowLoopFuel_h2 f l rest hb h2, visibleTexts_cons, ih rest hrest,
            List.filterMap_cons_some (lineText_eq_h2 l hb h2)]
          rfl
        | false =>
          cases h3 : pyStartswith (rstrip l) "### " with
          | true =>
            rw [flowLoopFuel_h3 f l rest hb h2 h3, visibleTexts_cons, ih rest hrest,
              List.filterMap_cons_some (lineText_eq_h3 l hb h2 h3)]
            rfl
          | false =>
            cases hm : isBulletMarked l with
            | true =>
              rw [flowLoopFuel_bullet f l rest hm, visibleTexts_cons, visibleTexts_cons]
              have hlen : ((l :: rest).dropWhile isBulletMarked).length ≤ f := by
                rw [List.dropWhile_cons, if_pos hm]
                exact Nat.le_trans (length_dropWhile_le _ _) hrest
              rw [ih _ hlen]
              conv_rhs =>
                rw [← List.takeWhile_append_dropWhile isBulletMarked (l :: rest)]
              rw [List.filterMap_append,
                filterMap_eq_map_of_bullets _ (fun x hx => List.mem_takeWhile_imp hx)]
              simp [flowableTexts]
            | false =>
              rw [flowLoopFuel_para f l rest hb h2 h3 hm, visibleTexts_cons, ih rest hrest,
                List.filterMap_cons_some (lineText_eq_para l hb h2 h3 hm)]
              rfl

lemma visibleTexts_flowablesOf (lines : List String) :
    visibleTexts (flowablesOf lines) = lines.filterMap lineText :=
  visibleTexts_flowLoopFuel lines.length lines (Nat.le_refl _)

/-! ### Splitting the parse at a non-bullet boundary -/

lemma takeWhile_all_append (p : String → Bool) :
    ∀ (run rest : List String), (∀ x ∈ run, p x = true) →
      (∀ x, rest.head? = some x → p x = false) →
      (run ++ rest).takeWhile p = run ∧ (run ++ rest).dropWhile p = rest := by
  intro run
  induction run with
  | nil =>
    intro rest hall hhead
    cases rest with
    | nil => exact ⟨rfl, rfl⟩
    | cons r t =>
      have hr : ¬ p r = true := by simp [hhead r rfl]
      rw [List.nil_append, List.takeWhile_cons, List.dropWhile_cons, if_neg hr, if_neg hr]
      exact ⟨rfl, rfl⟩
  | cons a run ih =>
    intro rest hall hhead
    obtain ⟨ht, hd⟩ := ih rest (fun x hx => hall x (by simp [hx])) hhead
    rw [List.cons_append, List.takeWhile_cons, List.dropWhile_cons,
      if_pos (hall a (by simp)), if_pos (hall a (by simp)), ht, hd]
    exact ⟨rfl, rfl⟩

lemma takeWhile_stop_append (p : String → Bool) :
    ∀ (L xs : List String), (∃ x ∈ L, p x = false) →
      (L ++ xs).takeWhile p = L.takeWhile p ∧
        (L ++ xs).dropWhile p = L.dropWhile p ++ xs := by
  intro L
  induction L with
  | nil =>
    rintro xs ⟨x, hx, -⟩
    simp at hx
  | cons a L ih =>
    rintro xs ⟨x, hx, hpx⟩
    by_cases ha : p a = true
    · have hmem : ∃ y ∈ L, p y = false := by
        rcases List.mem_cons.mp hx with rfl | hx2
        · rw [ha] at hpx; cases hpx
        · exact ⟨x, hx2, hpx⟩
      obtain ⟨ht, hd⟩ := ih xs hmem
      constructor
      · rw [List.cons_append, List.takeWhile_cons, List.takeWhile_cons,
          if_pos ha, if_pos ha, ht]
      · rw [List.cons_append, List.dropWhile_cons, List.dropWhile_cons,
          if_pos ha, if_pos ha, hd]
    · constructor
      · rw [List.cons_append, List.takeWhile_cons, List.takeWhile_cons,
          if_neg ha, if_neg ha]
      · rw [List.cons_append, List.dropWhile_cons, List.dropWhile_cons,
          if_neg ha, if_neg ha, List.cons_append]

lemma getLast?_dropWhile (p : String → Bool) (L : List String)
    (h : L.dropWhile p ≠ []) :
    (L.dropWhile p).getLast? = L.getLast? := by
  conv_rhs => rw [← List.takeWhile_append_dropWhile p L]
  rw [List.getLast?_append_of_ne_nil _ h]

lemma getLast?_tail_notBullet (l : String) (pre2 : List String)
    (hlast : ∀ x, (l :: pre2).getLast? = some x → isBulletMarked x = false) :
    ∀ x, pre2.getLast? = some x → isBulletMarked x = false := by
  intro x hx
  apply hlast
  cases pre2 with
  | nil => simp at hx
  | cons a t => rw [List.getLast?_cons_cons]; exact hx

lemma flowablesOf_append_aux :
    ∀ (n : Nat) (pre xs : List String), pre.length ≤ n →
      (∀ x, pre.getLast? = some x → isBulletMarked x = false) →
      flowablesOf (pre ++ xs) = flowablesOf pre ++ flowablesOf xs := by
  intro n
  induction n with
  | zero =>
    intro pre xs h hlast
    have hp : pre = [] := List.eq_nil_of_length_eq_zero (Nat.le_zero.mp h)
    subst hp
    rw [List.nil_append, flowablesOf_nil, List.nil_append]
  | succ f ih =>
    intro pre xs h hlast
    cases pre with
    | nil => rw [List.nil_append, flowablesOf_nil, List.nil_append]
    | cons l pre2 =>
      have hlen : pre2.length ≤ f := by
        simp only [List.length_cons] at h
        omega
      have hlast2 := getLast?_tail_notBullet l pre2 hlast
      rw [List.cons_append]
      cases hb : (pyStrip l).data.isEmpty with
      | true =>
        rw [flowablesOf_blank l (pre2 ++ xs) hb, flowablesOf_blank l pre2 hb,
          ih pre2 xs hlen hlast2, List.cons_append]
      | false =>
        cases h2 : pyStartswith (rstrip l) "## " with
        | true =>
          rw [flowablesOf_h2 l (pre2 ++ xs) hb h2, flowablesOf_h2 l pre2 hb h2,
            ih pre2 xs hlen hlast2, List.cons_append]
        | false =>
          cases h3 : pyStartswith (rstrip l) "### " with
          | true =>
            rw [flowablesOf_h3 l (pre2 ++ xs) hb h2 h3, flowablesOf_h3 l pre2 hb h2 h3,
              ih pre2 xs hlen hlast2, List.cons_append]
          | false =>
            cases hm : isBulletMarked l with
            | true =>
              cases pre2 with
              | nil =>
                rw [hlast l (by simp)] at hm
                cases hm
              | cons b t =>
                obtain ⟨y, hy⟩ : ∃ y, (b :: t).getLast? = some y := by
                  cases hg : (b :: t).getLast? with
                  | none => rw [List.getLast?_eq_none_iff] at hg; cases hg
                  | some y => exact ⟨y, rfl⟩
                have hby : isBulletMarked y = false := hlast2 y hy
                have hymem : y ∈ b :: t := List.mem_of_mem_getLast? hy
                obtain ⟨ht, hd⟩ :=
                  takeWhile_stop_append isBulletMarked (b :: t) xs ⟨y, hymem, hby⟩
                rw [flowablesOf_bullet l ((b :: t) ++ xs) hm, flowablesOf_bullet l (b :: t) hm,
                  List.takeWhile_cons, List.takeWhile_cons, List.dropWhile_cons,
                  List.dropWhile_cons, if_pos hm, if_pos hm, if_pos hm, if_pos hm, ht, hd]
                have hdlen : ((b :: t).dropWhile isBulletMarked).length ≤ f := by
                  exact Nat.le_trans (length_dropWhile_le _ _) hlen
                have hdlast : ∀ x, ((b :: t).dropWhile isBulletMarked).getLast? = some x →
                    isBulletMarked x = false := by
                  intro x hx
                  cases hdw : (b :: t).dropWhile isBulletMarked with
                  | nil => rw [hdw] at hx; simp at hx
                  | cons c cs =>
                    apply hlast2
                    rw [← getLast?_dropWhile isBulletMarked (b :: t) (by rw [hdw]; simp),
                      hdw, ← hx, hdw]
                rw [ih _ xs hdlen hdlast, List.cons_append, List.cons_append]
            | false =>
              rw [flowablesOf_para l (pre2 ++ xs) hb h2 h3 hm,
                flowablesOf_para l pre2 hb h2 h3 hm, ih pre2 xs hlen hlast2,
                List.cons_append]

lemma flowablesOf_append (pre xs : List String)
    (hlast : ∀ x, pre.getLast? = some x → isBulletMarked x = false) :
    flowablesOf (pre ++ xs) = flowablesOf pre ++ flowablesOf xs :=
  flowablesOf_append_aux pre.length pre xs (Nat.le_refl _) hlast

lemma flowablesOf_run (run rest : List String) (hne : run ≠ [])
    (hall : ∀ x ∈ run, isBulletMarked x = true)
    (hhead : ∀ x, rest.head? = some x → isBulletMarked x = false) :
    flowablesOf (run ++ rest) =
      Flowable.ListFlowableF (run.map bulletItem) :: Flowable.SpacerF 1 4 ::
        flowablesOf rest := by
  cases run with
  | nil => exact absurd rfl hne
  | cons l run2 =>
    obtain ⟨ht, hd⟩ := takeWhile_all_append isBulletMarked (run2) rest
      (fun x hx => hall x (by simp [hx])) hhead
    rw [List.cons_append, flowablesOf_bullet l (run2 ++ rest) (hall l (by simp)),
      List.takeWhile_cons, List.dropWhile_cons, if_pos (hall l (by simp)),
      if_pos (hall l (by simp)), ht, hd, List.map_cons]

/-! ### Heads of lines -/

lemma head_of_rstrip (l : String) (x : Char) (h : (rstrip l).data.head? = some x) :
    l.data.head? = some x := by
  obtain ⟨t, hd, -⟩ := rstrip_decomp l.data
  rw [data_rstrip] at h
  cases hr : (l.data.reverse.dropWhile pyIsSpace).reverse with
  | nil => rw [hr] at h; cases h
  | cons a as =>
    rw [hr] at h
    simp only [List.head?_cons] at h
    rw [hd, hr, List.cons_append, List.head?_cons]
    exact h

lemma head_of_h2 (s : String) (h : pyStartswith s "## " = true) :
    s.data.head? = some '#' := by
  obtain ⟨r, hr⟩ := pyStartswith_h2_data s h
  rw [hr]
  rfl

lemma head_of_h3 (s : String) (h : pyStartswith s "### " = true) :
    s.data.head? = some '#' := by
  obtain ⟨r, hr⟩ := pyStartswith_h3_data s h
  rw [hr]
  rfl

lemma pyStrip_isEmpty_false_of_lstrip_head (l : String) (x : Char)
    (h : (lstrip l).data.head? = some x) : (pyStrip l).data.isEmpty = false := by
  have h2 : (pyStrip l).data.head? = some x := by rw [pyStrip_head]; exact h
  cases hd : (pyStrip l).data with
  | nil => rw [hd] at h2; cases h2
  | cons a as => simp

lemma eq_empty_of_data_isEmpty (s : String) (h : s.data.isEmpty = true) : s = "" := by
  cases s with
  | mk d =>
    cases d with
    | nil => rfl
    | cons a l => simp at h

/-! ### Behaviour of the fallback loop -/

lemma fallbackLoop_step_error (call : String → Except PyErr Comp) (m : String)
    (e : PyErr) (rest : List String) (le : Option PyErr)
    (hc : call m = Except.error e) :
    fallbackLoop call (m :: rest) le = fallbackLoop call rest (some e) := by
  simp only [fallbackLoop, hc]

lemma fallbackLoop_step_empty (call : String → Except PyErr Comp) (m : String)
    (comp : Comp) (rest : List String) (le : Option PyErr)
    (hc : call m = Except.ok comp)
    (hemp : (pyStrip (_extract_text_from_chat_completion comp)).data.isEmpty = true) :
    fallbackLoop call (m :: rest) le =
      fallbackLoop call rest (some (PyErr.emptyContent m)) := by
  simp only [fallbackLoop, hc, hemp, if_pos]

lemma fallbackLoop_fail_step (call : String → Except PyErr Comp) (m : String)
    (rest : List String) (le : Option PyErr) (h : attemptFails call m = true) :
    fallbackLoop call (m :: rest) le =
      fallbackLoop call rest (some (attemptError call m)) := by
  unfold attemptFails at h
  unfold attemptError
  cases hc : call m with
  | error e => exact fallbackLoop_step_error call m e rest le hc
  | ok comp =>
    rw [hc] at h
    exact fallbackLoop_step_empty call m comp rest le hc h

lemma fallbackLoop_success (call : String → Except PyErr Comp) (m : String)
    (ms : List String) (le : Option PyErr) (h : attemptFails call m = false) :
    fallbackLoop call (m :: ms) le = Except.ok (attemptText call m, m) := by
  unfold attemptFails at h
  cases hc : call m with
  | error e =>
    rw [hc] at h
    exact Bool.noConfusion h
  | ok comp =>
    rw [hc] at h
    have h2 : (pyStrip (_extract_text_from_chat_completion comp)).data.isEmpty = false := h
    have ht : attemptText call m = _extract_text_from_chat_completion comp := by
      unfold attemptText
      rw [hc]
    rw [ht]
    simp only [fallbackLoop, hc, h2, Bool.false_eq_true, if_false]

lemma fallbackLoop_first_success (call : String → Except PyErr Comp) :
    ∀ (ms1 : List String) (m : String) (ms2 : List String) (le : Option PyErr),
      (∀ x ∈ ms1, attemptFails call x = true) → attemptFails call m = false →
      fallbackLoop call (ms1 ++ m :: ms2) le = Except.ok (attemptText call m, m) := by
  intro ms1
  induction ms1 with
  | nil =>
    intro m ms2 le _ h2
    rw [List.nil_append]
    exact fallbackLoop_success call m ms2 le h2
  | cons a t ih =>
    intro m ms2 le h1 h2
    rw [List.cons_append, fallbackLoop_fail_step call a _ le (h1 a (by simp))]
    exact ih m ms2 _ (fun x hx => h1 x (by simp [hx])) h2

/-- The `last_error` value left after attempting every model in `ms`
(starting from `le`): the recorded error of the last candidate, or the
starting value when there is none. -/
def lastAttemptError (call : String → Except PyErr Comp) (ms : List String)
    (le : Option PyErr) : Option PyErr :=
  match ms.getLast? with
  | none => le
  | some m => some (attemptError call m)

lemma fallbackLoop_all_fail (call : String → Except PyErr Comp) :
    ∀ (ms : List String) (le : Option PyErr), (∀ x ∈ ms, attemptFails call x = true) →
      fallbackLoop call ms le = Except.error ⟨lastAttemptError call ms le⟩ := by
  intro ms
  induction ms with
  | nil => intro le _; rfl
  | cons a t ih =>
    intro le h
    rw [fallbackLoop_fail_step call a t le (h a (by simp)),
      ih (some (attemptError call a)) (fun x hx => h x (by simp [hx]))]
    cases t with
    | nil => rfl
    | cons b t2 =>
      unfold lastAttemptError
      rw [List.getLast?_cons_cons]
      cases hg : (b :: t2).getLast? with
      | none => rw [List.getLast?_eq_none_iff] at hg; cases hg
      | some y => rfl

/-! ### Concrete call environments used by the claim witnesses -/

/-- A response whose content is the plain string `"hi"`. -/
def compHi : Comp := ⟨[⟨⟨Content.str "hi"⟩⟩]⟩

/-- A call environment: the first model raises, the second returns
whitespace-only content, every later model succeeds with `"hi"`. -/
def callMixed : String → Except PyErr Comp := fun m =>
  if m == "gpt-4o" then Except.error (PyErr.apiError "rate limit")
  else if m == "gpt-4o-mini" then Except.ok ⟨[⟨⟨Content.str "   "⟩⟩]⟩
  else Except.ok compHi

/-- A call environment in which every attempt fails: the first model
raises, every other model returns whitespace-only content. -/
def callFails : String → Except PyErr Comp := fun m =>
  if m == "gpt-4o" then Except.error (PyErr.apiError "boom")
  else Except.ok ⟨[⟨⟨Content.str " \t "⟩⟩]⟩

/-- A response whose content is the plain string `" hi "` (whitespace
around the text). -/
def compPadded : Comp := ⟨[⟨⟨Content.str " hi "⟩⟩]⟩

/-- A call environment that always returns `compPadded`. -/
def callPadded : String → Except PyErr Comp := fun _ => Except.ok compPadded

/-- A call environment that always returns `compHi`. -/
def callHi : String → Except PyErr Comp := fun _ => Except.ok compHi

/-! ### The claims -/

/-- Claim C1: for every model priority list split as
`ms1 ++ m :: ms2` in which every candidate of `ms1` fails (raises or
yields whitespace-only content) and `m` succeeds, the requester returns
the extracted text of `m` together with the identifier `m`; moreover the
result does not depend on the behaviour of the call environment on the
later candidates `ms2` (any environment agreeing on `ms1` and `m` gives
the same result), so no call issued after the first success can matter. -/
theorem claim_C1 (call : String → Except PyErr Comp) (ms1 : List String) (m : String)
    (ms2 : List String)
    (h1 : ∀ x ∈ ms1, attemptFails call x = true)
    (h2 : attemptFails call m = false) :
    get_travel_plan_markdown call (ms1 ++ m :: ms2) =
      Except.ok (attemptText call m, m) ∧
    ∀ call2 : String → Except PyErr Comp,
      (∀ x ∈ ms1, call2 x = call x) → call2 m = call m →
      get_travel_plan_markdown call2 (ms1 ++ m :: ms2) =
        Except.ok (attemptText call m, m) := by
  constructor
  · exact fallbackLoop_first_success call ms1 m ms2 none h1 h2
  · intro call2 hagr hm
    have h1b : ∀ x ∈ ms1, attemptFails call2 x = true := by
      intro x hx
      have hfx := h1 x hx
      unfold attemptFails at hfx ⊢
      rw [hagr x hx]
      exact hfx
    have h2b : attemptFails call2 m = false := by
      unfold attemptFails at h2 ⊢
      rw [hm]
      exact h2
    have htb : attemptText call2 m = attemptText call m := by
      unfold attemptText
      rw [hm]
    have h := fallbackLoop_first_success call2 ms1 m ms2 none h1b h2b
    rw [htb] at h
    exact h

theorem claim_C1_witness :
    get_travel_plan_markdown callMixed
        (["gpt-4o", "gpt-4o-mini"] ++ "gpt-4-turbo" :: ["spare-model"]) =
      Except.ok ("hi", "gpt-4-turbo") := by
  exact (claim_C1 callMixed ["gpt-4o", "gpt-4o-mini"] "gpt-4-turbo" ["spare-model"]
    (by decide) (by decide)).1

/-- Claim C2: if every candidate of the priority list fails (raises or
yields whitespace-only content), the requester fails with the
all-models-exhausted error carrying the error recorded for the last
attempted candidate (or nothing when the list is empty); and one
attempt step behaves identically for a raised error and for empty
content — both move on to the next candidate recording an error, and no
per-attempt error reaches the caller. -/
theorem claim_C2 (call : String → Except PyErr Comp) (ms : List String)
    (h : ∀ x ∈ ms, attemptFails call x = true) :
    get_travel_plan_markdown call ms =
      Except.error ⟨lastAttemptError call ms none⟩ ∧
    (∀ (m : String) (e : PyErr) (rest : List String) (le : Option PyErr),
        call m = Except.error e →
        fallbackLoop call (m :: rest) le = fallbackLoop call rest (some e)) ∧
    (∀ (m : String) (comp : Comp) (rest : List String) (le : Option PyErr),
        call m = Except.ok comp →
        (pyStrip (_extract_text_from_chat_completion comp)).data.isEmpty = true →
        fallbackLoop call (m :: rest) le =
          fallbackLoop call rest (some (PyErr.emptyContent m))) := by
  refine ⟨fallbackLoop_all_fail call ms none h, ?_, ?_⟩
  · intro m e rest le hc
    exact fallbackLoop_step_error call m e rest le hc
  · intro m comp rest le hc hemp
    exact fallbackLoop_step_empty call m comp rest le hc hemp

theorem claim_C2_witness :
    get_travel_plan_markdown callFails FALLBACK_MODELS =
      Except.error ⟨some (PyErr.emptyContent "gpt-4-turbo")⟩ := by
  exact (claim_C2 callFails FALLBACK_MODELS (by decide)).1

/-- Claim C3: the parse is total and order-preserving — the visible
texts of the emitted elements are exactly the per-line texts of the
input lines in order (`filterMap lineText`), and a line contributes no
text exactly when it is blank after stripping, so every non-blank line
contributes its textual content exactly once and no line is dropped. -/
theorem claim_C3 (md : String) :
    visibleTexts (markdown_to_flowables md) = (splitlines md).filterMap lineText ∧
    ∀ l ∈ splitlines md, (lineText l = none ↔ (pyStrip l).data.isEmpty = true) := by
  refine ⟨visibleTexts_flowablesOf (splitlines md), ?_⟩
  intro l _
  exact lineText_none_iff l

theorem claim_C3_witness :
    visibleTexts (markdown_to_flowables "## A\n- x\n\ntext") =
      (splitlines "## A\n- x\n\ntext").filterMap lineText ∧
    (lineText "- x" = none ↔ (pyStrip "- x").data.isEmpty = true) :=
  ⟨(claim_C3 "## A\n- x\n\ntext").1,
   (claim_C3 "## A\n- x\n\ntext").2 "- x" (by decide)⟩

/-- Claim C4: a maximal run of consecutive bullet-marked lines (the
line before it, if any, is not bullet-marked, and the line after it, if
any, is not bullet-marked) produces exactly one BulletList whose items
are the per-line item texts in order, followed by one Spacer; a
standalone bullet line is the one-element case. -/
theorem claim_C4 (pre run rest : List String)
    (hlast : ∀ x, pre.getLast? = some x → isBulletMarked x = false)
    (hne : run ≠ [])
    (hall : ∀ x ∈ run, isBulletMarked x = true)
    (hhead : ∀ x, rest.head? = some x → isBulletMarked x = false) :
    flowablesOf (pre ++ run ++ rest) =
      flowablesOf pre ++
        (Flowable.ListFlowableF (run.map bulletItem) :: Flowable.SpacerF 1 4 ::
          flowablesOf rest) := by
  rw [List.append_assoc, flowablesOf_append pre (run ++ rest) hlast,
    flowablesOf_run run rest hne hall hhead]

theorem claim_C4_witness :
    flowablesOf (["Sights:"] ++ ["- A", "* B", "• C"] ++ ["done"]) =
      flowablesOf ["Sights:"] ++
        (Flowable.ListFlowableF ["A", "B", "C"] :: Flowable.SpacerF 1 4 ::
          flowablesOf ["done"]) ∧
    flowablesOf ([] ++ ["- lone"] ++ []) =
      flowablesOf [] ++
        (Flowable.ListFlowableF ["lone"] :: Flowable.SpacerF 1 4 ::
          flowablesOf []) := by
  constructor
  · exact claim_C4 ["Sights:"] ["- A", "* B", "• C"] ["done"]
      (by
        intro x hx
        rw [show (["Sights:"] : List String).getLast? = some "Sights:" from rfl] at hx
        injection hx with hx2
        subst hx2
        decide)
      (by decide) (by decide)
      (by
        intro x hx
        rw [show (["done"] : List String).head? = some "done" from rfl] at hx
        injection hx with hx2
        subst hx2
        decide)
  · exact claim_C4 [] ["- lone"] []
      (by intro x hx; cases hx)
      (by decide) (by decide)
      (by intro x hx; cases hx)

/-- Claim C5: the end-to-end example parses to exactly the expected
element sequence (Heading2, body paragraph, one Spacer for the blank
line, Heading3, one BulletList with the two items, trailing Spacer). -/
theorem claim_C5 :
    markdown_to_flowables
        "## Trip Overview\nA great trip.\n\n### Day 1\n- Museum\n- Lunch\n" =
      [Flowable.ParagraphF "Trip Overview" Style.h2,
       Flowable.ParagraphF "A great trip." Style.body,
       Flowable.SpacerF 1 6,
       Flowable.ParagraphF "Day 1" Style.h3,
       Flowable.ListFlowableF ["Museum", "Lunch"],
       Flowable.SpacerF 1 4] ∧
    flowablesOf [""] = [Flowable.SpacerF 1 6] := by
  exact ⟨by decide, by decide⟩

/-- Claim C6 counterexample: the line `"## "` starts with the
two-character heading marker followed by a space, yet the parser emits
a body paragraph `"##"` for it — not the Heading2 with trimmed
remainder (the empty string) the claim asserts — because the heading
test runs on the right-stripped line `"##"`, which no longer carries
the trailing space; the `"### "` half fails the same way. -/
theorem claim_C6_counterexample :
    pyStartswith "## " "## " = true ∧
    flowablesOf ["## "] = [Flowable.ParagraphF "##" Style.body] ∧
    flowablesOf ["## "] ≠
      [Flowable.ParagraphF (pyStrip (strSliceFrom "## " 3)) Style.h2] ∧
    pyStartswith "### " "### " = true ∧
    flowablesOf ["### "] = [Flowable.ParagraphF "###" Style.body] ∧
    flowablesOf ["### "] ≠
      [Flowable.ParagraphF (pyStrip (strSliceFrom "### " 4)) Style.h3] := by
  refine ⟨by decide, by decide, by decide, by decide, by decide, by decide⟩

/-- Claim C6 as amended: a line whose right-stripped form starts with
the two-character heading marker and a space yields exactly one
Heading2 paragraph whose text is the trimmed remainder of the
right-stripped line, and likewise the three-character marker yields one
Heading3 paragraph; a line that itself starts with the marker and a
space but whose right-stripped form does not (the marker followed only
by whitespace) is emitted as a body paragraph instead. -/
theorem claim_C6_amended (l l3 lp : String) (rest rest3 restp : List String)
    (h2 : pyStartswith (rstrip l) "## " = true)
    (h3 : pyStartswith (rstrip l3) "### " = true)
    (hp1 : pyStartswith lp "## " = true)
    (hp2 : pyStartswith (rstrip lp) "## " = false) :
    flowablesOf (l :: rest) =
      Flowable.ParagraphF (pyStrip (strSliceFrom (rstrip l) 3)) Style.h2 ::
        flowablesOf rest ∧
    flowablesOf (l3 :: rest3) =
      Flowable.ParagraphF (pyStrip (strSliceFrom (rstrip l3) 4)) Style.h3 ::
        flowablesOf rest3 ∧
    flowablesOf (lp :: restp) =
      Flowable.ParagraphF (rstrip lp) Style.body :: flowablesOf restp := by
  refine ⟨?_, ?_, ?_⟩
  · exact flowablesOf_h2 l rest (pyStrip_isEmpty_false_of_h2 l h2) h2
  · exact flowablesOf_h3 l3 rest3 (pyStrip_isEmpty_false_of_h3 l3 h3)
      (h3_not_h2 _ h3) h3
  · obtain ⟨r, hr⟩ := pyStartswith_h2_data lp hp1
    have hhead : (lstrip lp).data.head? = some '#' := by
      rw [data_lstrip, hr, List.dropWhile_cons, if_neg (by decide)]
      rfl
    have hb : (pyStrip lp).data.isEmpty = false :=
      pyStrip_isEmpty_false_of_lstrip_head lp '#' hhead
    have h3f : pyStartswith (rstrip lp) "### " = false := by
      cases hs : pyStartswith (rstrip lp) "### " with
      | false => rfl
      | true =>
        obtain ⟨r2, hr2⟩ := pyStartswith_h3_data _ hs
        obtain ⟨t, hdec, -⟩ := rstrip_decomp lp.data
        rw [data_rstrip] at hr2
        rw [hr2, hr] at hdec
        rw [List.cons_append, List.cons_append, List.cons_append,
          List.cons_append] at hdec
        injection hdec with e1 hdec
        injection hdec with e2 hdec
        injection hdec with e3 hdec
        exact absurd e3 (by decide)
    have hbm : isBulletMarked lp = false := by
      cases hbm0 : isBulletMarked lp with
      | false => rfl
      | true =>
        obtain ⟨c, hc, hdisj⟩ := (isBulletMarked_iff lp).mp hbm0
        rw [data_lstrip] at hhead
        rw [hhead] at hc
        injection hc with hcc
        subst hcc
        rcases hdisj with h | h | h <;> exact absurd h (by decide)
    exact flowablesOf_para lp restp hb hp2 h3f hbm

theorem claim_C6_witness :
    flowablesOf ["## Trip Overview"] =
      Flowable.ParagraphF "Trip Overview" Style.h2 :: flowablesOf [] ∧
    flowablesOf ["### Day 1"] =
      Flowable.ParagraphF "Day 1" Style.h3 :: flowablesOf [] ∧
    flowablesOf ["## ", "after"] =
      Flowable.ParagraphF "##" Style.body :: flowablesOf ["after"] := by
  exact claim_C6_amended "## Trip Overview" "### Day 1" "## " [] [] ["after"]
    (by decide) (by decide) (by decide) (by decide)

/-- Claim C7 counterexample: for content presented as the plain string
`" hi "`, the extractor returns the string unmodified, which differs
from the trimmed newline-join of its fragments (`"hi"`), and the
requester returns the unmodified string as well — so the extracted text
is not always the trimmed concatenation the claim describes. -/
theorem claim_C7_counterexample :
    _extract_text_from_chat_completion compPadded = " hi " ∧
    pyStrip (joinNL (extractFragments [Part.str " hi "])) = "hi" ∧
    (" hi " : String) ≠ "hi" ∧
    get_travel_plan_markdown callPadded ["gpt-4o"] = Except.ok (" hi ", "gpt-4o") := by
  refine ⟨by decide, by decide, by decide, by rfl⟩

/-- Claim C7 as amended: extraction handles plain-string content and
part-list content; for part-list content the result is the trimmed
newline-join of the extractable fragments, while plain-string content
is returned unmodified (untrimmed) when its trim is non-empty and the
empty string otherwise; the requester returns the extracted text
unmodified whenever its trim is non-empty. -/
theorem claim_C7_amended (txt : String) (ps : List Part) (tail : List Choice)
    (call : String → Except PyErr Comp) (m : String) (ms : List String) (comp : Comp)
    (hcall : call m = Except.ok comp)
    (hne : (pyStrip (_extract_text_from_chat_completion comp)).data.isEmpty = false) :
    _extract_text_from_chat_completion ⟨⟨⟨Content.str txt⟩⟩ :: tail⟩ =
      (if (pyStrip txt).data.isEmpty then "" else txt) ∧
    _extract_text_from_chat_completion ⟨⟨⟨Content.parts ps⟩⟩ :: tail⟩ =
      pyStrip (joinNL (extractFragments ps)) ∧
    get_travel_plan_markdown call (m :: ms) =
      Except.ok (_extract_text_from_chat_completion comp, m) := by
  refine ⟨rfl, ?_, ?_⟩
  · show (if (pyStrip (joinNL (extractFragments ps))).data.isEmpty then "" else
        pyStrip (joinNL (extractFragments ps))) = pyStrip (joinNL (extractFragments ps))
    by_cases hj : (pyStrip (joinNL (extractFragments ps))).data.isEmpty = true
    · rw [if_pos hj, eq_empty_of_data_isEmpty _ hj]
    · rw [if_neg hj]
  · have hfail : attemptFails call m = false := by
      unfold attemptFails
      rw [hcall]
      exact hne
    have ht : attemptText call m = _extract_text_from_chat_completion comp := by
      unfold attemptText
      rw [hcall]
    have h := fallbackLoop_success call m ms none hfail
    rw [ht] at h
    exact h

theorem claim_C7_witness :
    _extract_text_from_chat_completion ⟨[⟨⟨Content.str " a "⟩⟩]⟩ =
      (if (pyStrip " a ").data.isEmpty then "" else " a ") ∧
    _extract_text_from_chat_completion
        ⟨[⟨⟨Content.parts [Part.str " a ", Part.obj (some "b")]⟩⟩]⟩ =
      pyStrip (joinNL (extractFragments [Part.str " a ", Part.obj (some "b")])) ∧
    get_travel_plan_markdown callHi ("gpt-4o" :: []) =
      Except.ok (_extract_text_from_chat_completion compHi, "gpt-4o") :=
  claim_C7_amended " a " [Part.str " a ", Part.obj (some "b")] [] callHi "gpt-4o" []
    compHi rfl (by decide)

/-- Claim C8: the markdown-to-elements transformation is a pure
function, so two runs on the same input are identical; the built story
differs between two runs only in the generation-timestamp paragraph at
index 1 (removing it gives identical sequences), which is the
identical-modulo-timestamp property. -/
theorem claim_C8 (md dest t1 t2 : String) :
    markdown_to_flowables md = markdown_to_flowables md ∧
    (write_pdf_story md dest t1).eraseIdx 1 = (write_pdf_story md dest t2).eraseIdx 1 ∧
    (write_pdf_story md dest t1).get? 1 =
      some (Flowable.ParagraphF ("Generated: " ++ t1) Style.normal) := by
  exact ⟨rfl, rfl, rfl⟩

/-- Claim C9: a line with at least one leading whitespace character
whose left-stripped form starts with a heading marker (and is not
bullet-marked) is emitted as a body paragraph carrying the
right-stripped line, not as a heading: the heading tests look at the
unstripped (only right-stripped) line while the bullet test
left-strips. -/
theorem claim_C9 (l : String) (rest : List String) (c : Char)
    (hc : l.data.head? = some c) (hw : pyIsSpace c = true)
    (hh : pyStartswith (lstrip l) "## " = true ∨ pyStartswith (lstrip l) "### " = true)
    (hnb : isBulletMarked l = false) :
    flowablesOf (l :: rest) =
      Flowable.ParagraphF (rstrip l) Style.body :: flowablesOf rest := by
  have hb : (pyStrip l).data.isEmpty = false := by
    rcases hh with h | h
    · exact pyStrip_isEmpty_false_of_lstrip_head l '#' (head_of_h2 _ h)
    · exact pyStrip_isEmpty_false_of_lstrip_head l '#' (head_of_h3 _ h)
  have hcs : c ≠ '#' := by
    intro hceq
    rw [hceq] at hw
    exact absurd hw (by decide)
  have h2f : pyStartswith (rstrip l) "## " = false := by
    cases hs : pyStartswith (rstrip l) "## " with
    | false => rfl
    | true =>
      have hhead := head_of_rstrip l '#' (head_of_h2 _ hs)
      rw [hc] at hhead
      injection hhead with hcc
      exact absurd hcc hcs
  have h3f : pyStartswith (rstrip l) "### " = false := by
    cases hs : pyStartswith (rstrip l) "### " with
    | false => rfl
    | true =>
      have hhead := head_of_rstrip l '#' (head_of_h3 _ hs)
      rw [hc] at hhead
      injection hhead with hcc
      exact absurd hcc hcs
  exact flowablesOf_para l rest hb h2f h3f hnb

theorem claim_C9_witness :
    flowablesOf [" ## Indented", "next"] =
      Flowable.ParagraphF " ## Indented" Style.body :: flowablesOf ["next"] := by
  exact claim_C9 " ## Indented" ["next"] ' ' (by rfl) (by decide)
    (Or.inl (by decide)) (by decide)

/-- Claim C10: the dispatch loop terminates after at most one step per
input line — one unit of fuel per line is enough, so any fuel of at
least the line count computes the same parse. -/
theorem claim_C10 (lines : List String) (fuel : Nat) (h : lines.length ≤ fuel) :
    flowLoopFuel fuel lines = flowablesOf lines :=
  flowLoopFuel_stable fuel lines h

theorem claim_C10_witness :
    flowLoopFuel 17 ["## T", "- a", "- b", "", "x"] =
      flowablesOf ["## T", "- a", "- b", "", "x"] :=
  claim_C10 ["## T", "- a", "- b", "", "x"] 17 (by decide)

end TravelGuide
